import Mathlib

/-!
Verification of the klepto text dumper (`pkg/dumper/query/dumper.go`).

The Go source is shallowly embedded below. Dynamically typed Go values
(`interface{}`) are modelled by the inductive `GoValue`, whose constructors
correspond to the dynamic types that `toSQLStringValue`'s type switch
distinguishes, plus the extra widths (`int`, `int32`, `uint64`, `float32`)
needed to observe which types fall to the `default:` arm, plus a catch-all
`vOther` for any remaining dynamic type.

Floats, byte slices and `time.Time` values are represented by the string the
Go runtime would render for them (`fmt.Sprintf("%v", f)`, `string(b)`,
`t.String()` respectively): no property below depends on the text of those
renderings, only on the fact that the coercer passes them through.
-/

set_option autoImplicit false

namespace Klepto

/-- A dynamically typed Go value (`interface{}`), as dispatched on by the
type switch in `toSQLStringValue` (dumper.go:127-166).  `vInt64` carries the
mathematical value of the `int64`.  `vPtrNil` and `vPtr v` model a value of
dynamic type `*interface{}`: `vPtrNil` is a nil pointer, `vPtr v` a pointer
to `v`.  `vNil` is the nil interface (no dynamic type).  `vOther` stands for any
dynamic type outside the enumerated ones, tagged with its type name. -/
inductive GoValue where
  | vInt64 (i : Int)
  | vInt (i : Int)
  | vInt32 (i : Int)
  | vUInt64 (n : Nat)
  | vFloat64 (rendered : String)
  | vFloat32 (rendered : String)
  | vBool (b : Bool)
  | vString (s : String)
  | vBytes (decoded : String)
  | vTime (rendered : String)
  | vNil
  | vPtrNil
  | vPtr (v : GoValue)
  | vOther (typeName : String)
  deriving DecidableEq, Repr

/-- Outcome of one call to `toSQLStringValue`.  `ok` is a normal return of a
literal; `err` is a non-nil error return (Go also returns the zero string ""
alongside it, which every caller discards); `panicked` is a runtime panic. -/
inductive CoerceResult where
  | ok (s : String)
  | err (msg : String)
  | panicked (msg : String)
  deriving DecidableEq, Repr

/-- Go's `src == nil` on an `interface{}` value: true only when the interface
itself is nil (no dynamic type).  An interface holding a typed nil pointer,
such as `(*interface{})(nil)`, is NOT nil. -/
def interfaceIsNil : GoValue → Bool
  | GoValue.vNil => true
  | _ => false

/-- `strconv.FormatBool` (dumper.go:139). -/
def formatBool (b : Bool) : String :=
  if b then "true" else "false"

/-- `textDumper.toSQLStringValue` (dumper.go:126-166).  Each arm mirrors one
`case` of the Go type switch; the inner `if value, ok := src.(T); ok` checks
always succeed after the switch matched, so they are not modelled.  The dead
`return "", nil` at the end of the Go function is unreachable for the same
reason.  In the `*interface{}` arm the Go code guards with `if src == nil`,
which compares the interface value (not the pointer) to nil and is therefore
always false once the switch matched `*interface{}`; the subsequent
dereference `*(src.(*interface{}))` panics when the pointer is nil. -/
def toSQLStringValue : GoValue → CoerceResult
  | GoValue.vInt64 i => CoerceResult.ok (toString i)
  | GoValue.vFloat64 r => CoerceResult.ok r
  | GoValue.vBool b => CoerceResult.ok (formatBool b)
  | GoValue.vString s => CoerceResult.ok s
  | GoValue.vBytes s => CoerceResult.ok s
  | GoValue.vTime r => CoerceResult.ok r
  | GoValue.vNil => CoerceResult.ok "NULL"
  | GoValue.vPtrNil =>
      if interfaceIsNil GoValue.vPtrNil then CoerceResult.ok "NULL"
      else CoerceResult.panicked "invalid memory address or nil pointer dereference"
  | GoValue.vPtr v =>
      if interfaceIsNil (GoValue.vPtr v) then CoerceResult.ok "NULL"
      else toSQLStringValue v
  | GoValue.vInt _ => CoerceResult.err "could not parse type"
  | GoValue.vInt32 _ => CoerceResult.err "could not parse type"
  | GoValue.vUInt64 _ => CoerceResult.err "could not parse type"
  | GoValue.vFloat32 _ => CoerceResult.err "could not parse type"
  | GoValue.vOther _ => CoerceResult.err "could not parse type"

/-- A `database.Row`: a Go map from column name to raw value.  Modelled as an
association list in one fixed iteration order (Go map iteration order is
arbitrary; every property proved below holds for each order).  Keys are
unique in a Go map. -/
abbrev Row : Type := List (String × GoValue)

/-- Outcome of `toSQLColumnMap` (dumper.go:111-124).  The Go function returns
the pair `(sqlColumnMap, err)`; on the first coercion error it returns the
map as filled so far together with the error (`return sqlColumnMap, err` at
dumper.go:118), so `errPartial` records that partially built map.  A panic
inside `toSQLStringValue` propagates. -/
inductive MapResult where
  | ok (m : List (String × String))
  | errPartial (m : List (String × String)) (msg : String)
  | panicked (msg : String)
  deriving DecidableEq, Repr

/-- `textDumper.toSQLColumnMap` (dumper.go:111-124): coerce each cell with
`toSQLStringValue`; on the first error stop and return the partial map with
the error.  `fmt.Sprintf("%v", strValue)` on a string is the string itself. -/
def toSQLColumnMap : Row → MapResult
  | [] => MapResult.ok []
  | (c, v) :: rest =>
      match toSQLStringValue v with
      | CoerceResult.ok s =>
          match toSQLColumnMap rest with
          | MapResult.ok m => MapResult.ok ((c, s) :: m)
          | MapResult.errPartial m msg => MapResult.errPartial ((c, s) :: m) msg
          | MapResult.panicked msg => MapResult.panicked msg
      | CoerceResult.err msg => MapResult.errPartial [] msg
      | CoerceResult.panicked msg => MapResult.panicked msg

/-- Modelled from the spec: `sq.Insert(tableName).SetMap(columnMap)` rendered
by `sq.DebugSqlizer` is an external statement-builder collaborator (§6: a
pure formatting function `Render(table name, column map)`); its exact output
text is irrelevant to every claim, only its determinism matters. -/
def renderInsert (tbl : String) (m : List (String × String)) : String :=
  "INSERT INTO " ++ tbl ++ " SET " ++
    String.intercalate ", " (m.map fun p => p.1 ++ " = " ++ p.2)

/-- A `config.Table` entry as this core consumes it.  The spec's data model
(§3) is explicit that only one per-table setting concerns this core: the
boolean "ignore data" flag; the entry is looked up by table name. -/
structure Table where
  name : String
  ignoreData : Bool
  deriving DecidableEq, Repr

/-- Modelled from the spec: `config.Tables.FindByName` lives outside the
given source; §6 specifies it as "lookup by table name → configuration
object or a not-found sentinel". -/
def findByName (cfg : List Table) (n : String) : Option Table :=
  cfg.find? fun t => t.name == n

/-- Modelled from the spec: `reader.ReadTableOpt` lives outside the given
source.  §3 treats Read Options as an opaque object this core constructs but
never interprets, and whose construction depends on the configuration only
through the flag lookup; accordingly it carries no data here. -/
inductive ReadTableOpt where
  | mk
  deriving DecidableEq, Repr

/-- The zero value `var opts reader.ReadTableOpt` (dumper.go:51). -/
def defaultOpt : ReadTableOpt := ReadTableOpt.mk

/-- Modelled from the spec: `reader.NewReadTableOpt` (dumper.go:62) lives
outside the given source; §4.4c describes it as building Read Options from
the configuration, default options when none is found, and §8 states that a
table absent from configuration is processed identically to one present with
"ignore data" false. -/
def newReadTableOpt (_ : Table) : ReadTableOpt := ReadTableOpt.mk

/-- Observable actions of a dump run.  `recvDone` stands for the orchestrator
receiving a value from the `done` channel — `Dump`'s parameter is the
send-only `chan<- struct{}` (dumper.go:35), so `Dump` contains no receive and
never produces this event; it is included so that the absence of any await
inside `Dump` is expressible.  `doneSent` is a worker's `done <- struct{}{}`
(dumper.go:71). -/
inductive Event where
  | wroteStructure (s : String)
  | skip (t : String)
  | spawn (t : String)
  | read (t : String) (opt : ReadTableOpt)
  | readErrorLogged (t : String) (msg : String)
  | wrote (t : String) (s : String)
  | writeErrorLogged (t : String)
  | doneSent (t : String)
  | recvDone
  deriving DecidableEq, Repr

/-- The external collaborators of one dump run (reader and output sink),
fixed up front so that the run is a function of them.
`tables`/`structureText` are the reader's `GetTables`/`GetStructure` results;
`structWriteOk` is whether the single `io.WriteString` of the structure
succeeds; `rowsFor t opt` is the sequence of rows the reader pushes into
table `t`'s channel before closing it, and `readErr t opt` the error value
`ReadTable` returns; `sinkOk t k` is whether the `k`-th `io.WriteString`
issued by table `t`'s worker succeeds.  (The sink is shared, but the success
or failure of each individual write is an external given, so indexing the
writes per table loses no behaviour any claim mentions.) -/
structure Collab where
  tables : Except String (List String)
  structureText : Except String String
  structWriteOk : Bool
  rowsFor : String → ReadTableOpt → List Row
  readErr : String → ReadTableOpt → Option String
  sinkOk : String → Nat → Bool

/-- The goroutine body spawned per table (dumper.go:67-88), run over the
whole row stream: for each received row, build the column map — a non-nil
error is `logger.Fatal`, which terminates the process (second component
`some msg`), as does a panic; otherwise render the insert statement and
write it and a newline, logging (but not propagating) each write failure;
when the channel is closed, send one completion signal and return.
`k` indexes the worker's write calls into `sinkOk`. -/
def workerRun (t : String) (sink : Nat → Bool) : List Row → Nat → List Event × Option String
  | [], _ => ([Event.doneSent t], none)
  | row :: rest, k =>
      match toSQLColumnMap row with
      | MapResult.ok m =>
          ((if sink k then Event.wrote t (renderInsert t m)
            else Event.writeErrorLogged t) ::
           (if sink (k + 1) then Event.wrote t "\n"
            else Event.writeErrorLogged t) ::
           (workerRun t sink rest (k + 2)).1,
           (workerRun t sink rest (k + 2)).2)
      | MapResult.errPartial _ msg =>
          ([], some ("could not convert value to string: " ++ msg))
      | MapResult.panicked msg => ([], some ("panic: " ++ msg))

/-- Events logged when `ReadTable` returns an error (dumper.go:90-92). -/
def readErrEvents (c : Collab) (t : String) (opt : ReadTableOpt) : List Event :=
  match c.readErr t opt with
  | some m => [Event.readErrorLogged t m]
  | none => []

/-- One non-skipped table: spawn the worker (dumper.go:67), call `ReadTable`
(dumper.go:90) which feeds and closes the stream, log its error if any.  If
the worker hit a fatal error the process dies there (`some msg`); the events
before death are kept. -/
def tableGo (c : Collab) (t : String) (opt : ReadTableOpt) : List Event × Option String :=
  match workerRun t (c.sinkOk t) (c.rowsFor t opt) 0 with
  | (es, some m) => (Event.spawn t :: Event.read t opt :: es, some m)
  | (es, none) =>
      (Event.spawn t :: Event.read t opt :: (es ++ readErrEvents c t opt), none)

/-- One iteration of the table loop (dumper.go:49-93): look the table up in
the configuration; a configured table with `IgnoreData` is skipped with
`continue` before any channel, goroutine or read (dumper.go:57-60);
otherwise the options come from the configuration, or stay the zero value
when no configuration is found. -/
def tableRun (c : Collab) (cfg : List Table) (t : String) : List Event × Option String :=
  match findByName cfg t with
  | some tc =>
      if tc.ignoreData then ([Event.skip t], none)
      else tableGo c t (newReadTableOpt tc)
  | none => tableGo c t defaultOpt

/-- The table loop over the reader's table list. -/
def dumpLoop (c : Collab) (cfg : List Table) : List String → List Event × Option String
  | [] => ([], none)
  | t :: rest =>
      match tableRun c cfg t with
      | (es, some m) => (es, some m)
      | (es, none) =>
          let r := dumpLoop c cfg rest
          (es ++ r.1, r.2)

/-- Result of a run of `Dump`.  `failed` is a non-nil error return from
`Dump` itself (tables, structure, or structure write failing); `fatalExit`
means a worker's `log.Fatal` (or panic) killed the process, so `Dump` never
returned; `ok` is a nil return. -/
inductive DumpResult where
  | failed (msg : String)
  | fatalExit (msg : String) (events : List Event)
  | ok (events : List Event)
  deriving DecidableEq, Repr

/-- `textDumper.Dump` (dumper.go:35-96): get the tables, get and write the
structure (each failure aborting with a wrapped error), then run the table
loop and return nil.  There is no receive from `done` anywhere: the channel
parameter is send-only, and the function returns as soon as the loop is
done. -/
def dump (c : Collab) (cfg : List Table) : DumpResult :=
  match c.tables with
  | Except.error m => DumpResult.failed ("failed to get tables: " ++ m)
  | Except.ok ts =>
      match c.structureText with
      | Except.error m => DumpResult.failed ("could not get database structure: " ++ m)
      | Except.ok st =>
          if c.structWriteOk then
            match dumpLoop c cfg ts with
            | (es, some m) => DumpResult.fatalExit m (Event.wroteStructure st :: es)
            | (es, none) => DumpResult.ok (Event.wroteStructure st :: es)
          else DumpResult.failed "could not write structure to output"

/-- The events of a run; a `failed` run produced none that matter here. -/
def eventsOf : DumpResult → List Event
  | DumpResult.failed _ => []
  | DumpResult.fatalExit _ es => es
  | DumpResult.ok es => es

/-- Which table an event belongs to, if any. -/
def evTable : Event → Option String
  | Event.wroteStructure _ => none
  | Event.skip t => some t
  | Event.spawn t => some t
  | Event.read t _ => some t
  | Event.readErrorLogged t _ => some t
  | Event.wrote t _ => some t
  | Event.writeErrorLogged t => some t
  | Event.doneSent t => some t
  | Event.recvDone => none

/-- Number of completion signals the orchestrator received. -/
def recvCnt (es : List Event) : Nat := es.count Event.recvDone

/-- Whether an event is a worker spawn. -/
def isSpawn : Event → Bool
  | Event.spawn _ => true
  | _ => false

/-- Whether an event is a sent completion signal. -/
def isDoneSent : Event → Bool
  | Event.doneSent _ => true
  | _ => false

/-- Number of workers spawned. -/
def spawnCnt (es : List Event) : Nat := (es.filter isSpawn).length

/-- Number of completion signals sent by workers. -/
def doneCnt (es : List Event) : Nat := (es.filter isDoneSent).length

/-! ## Properties of the Value Coercer -/

/-- C5: for every supported non-boxed value the coercer returns exactly the
specified literal: an `int64` maps to its exact decimal string (42 → "42"),
a `bool` to the literal "true"/"false" (false → "false"), a string is
returned unchanged, and the nil interface maps to the literal "NULL". -/
theorem valueCoercer_literals (i : Int) (b : Bool) (s : String) :
    toSQLStringValue (GoValue.vInt64 i) = CoerceResult.ok (toString i) ∧
    toSQLStringValue (GoValue.vBool b) = CoerceResult.ok (if b then "true" else "false") ∧
    toSQLStringValue (GoValue.vString s) = CoerceResult.ok s ∧
    toSQLStringValue GoValue.vNil = CoerceResult.ok "NULL" ∧
    toSQLStringValue (GoValue.vInt64 42) = CoerceResult.ok "42" ∧
    toSQLStringValue (GoValue.vBool false) = CoerceResult.ok "false" :=
  ⟨rfl, rfl, rfl, rfl, by decide, rfl⟩

/-- C10: the type switch accepts numbers only at exactly the 64-bit types:
`int`, `int32`, `uint64` and `float32` all fall through to the
unsupported-type error, while `int64` and `float64` are formatted. -/
theorem coercer_width_dispatch (a b : Int) (n : Nat) (r q : String) (i : Int) :
    toSQLStringValue (GoValue.vInt a) = CoerceResult.err "could not parse type" ∧
    toSQLStringValue (GoValue.vInt32 b) = CoerceResult.err "could not parse type" ∧
    toSQLStringValue (GoValue.vUInt64 n) = CoerceResult.err "could not parse type" ∧
    toSQLStringValue (GoValue.vFloat32 r) = CoerceResult.err "could not parse type" ∧
    toSQLStringValue (GoValue.vInt64 i) = CoerceResult.ok (toString i) ∧
    toSQLStringValue (GoValue.vFloat64 q) = CoerceResult.ok q :=
  ⟨rfl, rfl, rfl, rfl, rfl, rfl⟩

/-- C2: coercing a non-nil box re-dispatches on the inner value, but
coercing a nil `*interface{}` box PANICS instead of returning "NULL": the
guard `if src == nil` compares the interface value to nil, which is never
true once the type switch matched `*interface{}`, so the nil pointer is
dereferenced.  This contradicts the claim (and the evident intent of the
guard at dumper.go:157-159). -/
theorem boxed_nil_panics :
    toSQLStringValue GoValue.vPtrNil
      = CoerceResult.panicked "invalid memory address or nil pointer dereference" ∧
    interfaceIsNil GoValue.vPtrNil = false ∧
    toSQLStringValue (GoValue.vPtr (GoValue.vInt64 7)) = CoerceResult.ok "7" ∧
    toSQLStringValue (GoValue.vPtr GoValue.vNil) = CoerceResult.ok "NULL" :=
  ⟨rfl, rfl, by decide, rfl⟩

/-! ## Properties of the Row Serializer -/

/-- A row whose column map builds successfully had every cell coerce
successfully. -/
theorem toSQLColumnMap_ok_mem {row : Row} {m : List (String × String)}
    (h : toSQLColumnMap row = MapResult.ok m) :
    ∀ p ∈ row, ∃ s, toSQLStringValue p.2 = CoerceResult.ok s := by
  induction row generalizing m with
  | nil => intro p hp; cases hp
  | cons hd tl ih =>
    obtain ⟨c, v⟩ := hd
    simp only [toSQLColumnMap] at h
    split at h
    case h_2 => cases h
    case h_3 => cases h
    case h_1 s heq =>
      split at h
      case h_2 => cases h
      case h_3 => cases h
      case h_1 m2 heq2 =>
        intro p hp
        rcases List.mem_cons.mp hp with rfl | hp
        · exact ⟨s, heq⟩
        · exact ih heq2 p hp

/-- C4: a value of unsupported dynamic type fails with the
unsupported-type error and a row containing such a cell never serializes
to a column map — the row as a whole is aborted, never skip-and-continue. -/
theorem unsupported_aborts_row (ty : String) (row : Row) (c : String) :
    toSQLStringValue (GoValue.vOther ty) = CoerceResult.err "could not parse type" ∧
    ((c, GoValue.vOther ty) ∈ row → ∀ m, toSQLColumnMap row ≠ MapResult.ok m) := by
  refine ⟨rfl, fun hmem m hok => ?_⟩
  obtain ⟨s, hs⟩ := toSQLColumnMap_ok_mem hok _ hmem
  simp only [toSQLStringValue] at hs
  cases hs

/-- Witness for C4 at a concrete row. -/
theorem unsupported_aborts_row_witness :
    toSQLStringValue (GoValue.vOther "chan int") = CoerceResult.err "could not parse type" ∧
    ∀ m, toSQLColumnMap [("a", GoValue.vOther "chan int")] ≠ MapResult.ok m :=
  ⟨(unsupported_aborts_row "chan int" [("a", GoValue.vOther "chan int")] "a").1,
   fun m =>
     (unsupported_aborts_row "chan int" [("a", GoValue.vOther "chan int")] "a").2
       (List.mem_singleton.mpr rfl) m⟩

/-- C3 counterexample: on a row whose second cell fails to coerce, the
serializer returns the error together with the partially built map
`[("a", "x")]`, whose key list is a strict subset of the row's keys — a
partial map IS handed back alongside the error. -/
theorem rowSerializer_partial_cex :
    toSQLColumnMap [("a", GoValue.vString "x"), ("b", GoValue.vOther "chan int")]
      = MapResult.errPartial [("a", "x")] "could not parse type" ∧
    ([("a", "x")].map Prod.fst) ⊆
      ([("a", GoValue.vString "x"), ("b", GoValue.vOther "chan int")].map Prod.fst) ∧
    ([("a", "x")].map Prod.fst) ≠
      ([("a", GoValue.vString "x"), ("b", GoValue.vOther "chan int")].map Prod.fst) := by
  refine ⟨rfl, ?_, by decide⟩
  intro x hx
  simp only [List.map, List.mem_singleton] at hx
  simp [hx]

/-- C3 amended: on the first coercion failure the serializer stops
immediately and returns that error; no later cell is processed, and the map
returned alongside the error is exactly the partial map of the cells coerced
before the failure. -/
theorem rowSerializer_first_error (pre post : Row) (c : String) (v : GoValue)
    (m : List (String × String)) (msg : String)
    (hpre : toSQLColumnMap pre = MapResult.ok m)
    (hv : toSQLStringValue v = CoerceResult.err msg) :
    toSQLColumnMap (pre ++ (c, v) :: post) = MapResult.errPartial m msg := by
  induction pre generalizing m with
  | nil =>
    simp only [toSQLColumnMap] at hpre
    cases hpre
    simp only [List.nil_append, toSQLColumnMap, hv]
  | cons hd tl ih =>
    obtain ⟨c', v'⟩ := hd
    simp only [toSQLColumnMap] at hpre
    split at hpre
    case h_2 => cases hpre
    case h_3 => cases hpre
    case h_1 s heq =>
      split at hpre
      case h_2 => cases hpre
      case h_3 => cases hpre
      case h_1 m2 heq2 =>
        cases hpre
        simp only [List.cons_append, toSQLColumnMap, heq, List.append_eq, ih m2 heq2]

/-- Witness for the amended C3 at a concrete row. -/
theorem rowSerializer_first_error_witness :
    toSQLColumnMap
        [("a", GoValue.vString "x"), ("b", GoValue.vOther "T"), ("z", GoValue.vInt64 1)]
      = MapResult.errPartial [("a", "x")] "could not parse type" :=
  rowSerializer_first_error [("a", GoValue.vString "x")] [("z", GoValue.vInt64 1)] "b"
    (GoValue.vOther "T") [("a", "x")] "could not parse type" rfl rfl

/-! ## Properties of the Per-Table Worker -/

/-- The two write events of one successfully serialized row are never
completion signals, whichever way the sink behaved. -/
theorem isDoneSent_writeEv (b : Bool) (t s : String) :
    isDoneSent (if b then Event.wrote t s else Event.writeErrorLogged t) = false := by
  cases b <;> rfl

/-- C6 counterexample: a spawned worker whose stream delivers a row with an
unsupported value emits NO completion signal: `toSQLColumnMap` fails, the
worker runs `logger.Fatal`, and the process dies before any signal — so
"every spawned worker emits exactly one Completion Signal" fails. -/
theorem worker_fatal_no_signal_cex :
    workerRun "t" (fun _ => true) [[("a", GoValue.vOther "chan int")]] 0
      = ([], some "could not convert value to string: could not parse type") ∧
    doneCnt (workerRun "t" (fun _ => true) [[("a", GoValue.vOther "chan int")]] 0).1 = 0 :=
  ⟨rfl, rfl⟩

/-- C6 amended: every spawned worker all of whose rows serialize
successfully emits exactly one Completion Signal, as its final action, when
its stream closes — even when zero rows were delivered and regardless of
which sink writes failed; a worker that hits a serialization failure halts
the process without signalling. -/
theorem worker_signals_once (t : String) (sink : Nat → Bool) (rows : List Row) (k : Nat)
    (h : ∀ row ∈ rows, ∃ m, toSQLColumnMap row = MapResult.ok m) :
    (workerRun t sink rows k).2 = none ∧
    doneCnt (workerRun t sink rows k).1 = 1 ∧
    (workerRun t sink rows k).1.getLast? = some (Event.doneSent t) := by
  induction rows generalizing k with
  | nil => exact ⟨rfl, rfl, rfl⟩
  | cons row rest ih =>
    obtain ⟨m, hm⟩ := h row (List.mem_cons_self _ _)
    obtain ⟨h1, h2, h3⟩ := ih (k + 2) fun r hr => h r (List.mem_cons_of_mem _ hr)
    simp only [workerRun, hm]
    refine ⟨h1, ?_, ?_⟩
    · simp only [doneCnt, List.filter_cons, isDoneSent_writeEv, Bool.false_eq_true,
        if_false] at h2 ⊢
      exact h2
    · rcases hw : (workerRun t sink rest (k + 2)).1 with _ | ⟨x, xs⟩
      · rw [hw] at h3; cases h3
      · rw [hw] at h3
        rw [List.getLast?_cons_cons, List.getLast?_cons_cons]
        exact h3

/-- Witness for the amended C6: one good row, every sink write failing. -/
theorem worker_signals_once_witness :
    (workerRun "t" (fun _ => false) [[("a", GoValue.vInt64 1)]] 0).2 = none ∧
    doneCnt (workerRun "t" (fun _ => false) [[("a", GoValue.vInt64 1)]] 0).1 = 1 ∧
    (workerRun "t" (fun _ => false) [[("a", GoValue.vInt64 1)]] 0).1.getLast?
      = some (Event.doneSent "t") :=
  worker_signals_once "t" (fun _ => false) [[("a", GoValue.vInt64 1)]] 0
    (by
      intro r hr
      rw [List.mem_singleton] at hr
      subst hr
      exact ⟨[("a", "1")], by decide⟩)

/-- C8: when a row serializes but its write is rejected by the sink, the
worker logs the write error and processes the remaining rows exactly as it
otherwise would — same events for the rest, same (non-)fatality, same
completion signalling; a write failure never terminates the worker or skips
the remainder of the stream. -/
theorem write_failure_nonfatal (t : String) (sink : Nat → Bool) (row : Row)
    (rest : List Row) (k : Nat) (m : List (String × String))
    (hrow : toSQLColumnMap row = MapResult.ok m) (hfail : sink k = false) :
    (workerRun t sink (row :: rest) k).1
      = Event.writeErrorLogged t ::
        (if sink (k + 1) then Event.wrote t "\n" else Event.writeErrorLogged t) ::
        (workerRun t sink rest (k + 2)).1 ∧
    (workerRun t sink (row :: rest) k).2 = (workerRun t sink rest (k + 2)).2 ∧
    doneCnt (workerRun t sink (row :: rest) k).1
      = doneCnt (workerRun t sink rest (k + 2)).1 := by
  refine ⟨?_, ?_, ?_⟩
  · simp only [workerRun, hrow, hfail, Bool.false_eq_true, if_false]
  · simp only [workerRun, hrow]
  · simp only [workerRun, hrow, doneCnt, List.filter_cons, isDoneSent_writeEv,
      Bool.false_eq_true, if_false]

/-- Witness for C8: concrete row, all writes failing. -/
theorem write_failure_nonfatal_witness :
    (workerRun "t" (fun _ => false) [[("a", GoValue.vInt64 1)]] 0).1
      = Event.writeErrorLogged "t" :: Event.writeErrorLogged "t" ::
        (workerRun "t" (fun _ => false) ([] : List Row) 2).1 ∧
    (workerRun "t" (fun _ => false) [[("a", GoValue.vInt64 1)]] 0).2
      = (workerRun "t" (fun _ => false) ([] : List Row) 2).2 ∧
    doneCnt (workerRun "t" (fun _ => false) [[("a", GoValue.vInt64 1)]] 0).1
      = doneCnt (workerRun "t" (fun _ => false) ([] : List Row) 2).1 :=
  write_failure_nonfatal "t" (fun _ => false) [("a", GoValue.vInt64 1)] [] 0
    [("a", "1")] (by decide) rfl

/-! ## Properties of the Dump Orchestrator -/

/-- Every event a worker produces belongs to that worker's table. -/
theorem workerRun_evTable (t : String) (sink : Nat → Bool) (rows : List Row) (k : Nat) :
    ∀ e ∈ (workerRun t sink rows k).1, evTable e = some t := by
  induction rows generalizing k with
  | nil =>
    intro e he
    rw [show (workerRun t sink [] k).1 = [Event.doneSent t] from rfl,
      List.mem_singleton] at he
    subst he; rfl
  | cons row rest ih =>
    intro e he
    rcases hm : toSQLColumnMap row with m | ⟨m, msg⟩ | msg
    · simp only [workerRun, hm] at he
      rcases List.mem_cons.mp he with rfl | he
      · cases hs : sink k <;> simp [hs, evTable]
      · rcases List.mem_cons.mp he with rfl | he
        · cases hs : sink (k + 1) <;> simp [hs, evTable]
        · exact ih (k + 2) e he
    · simp only [workerRun, hm] at he
      cases he
    · simp only [workerRun, hm] at he
      cases he

/-- Every event `tableGo` produces belongs to its table. -/
theorem tableGo_evTable (c : Collab) (t : String) (opt : ReadTableOpt) :
    ∀ e ∈ (tableGo c t opt).1, evTable e = some t := by
  intro e he
  rcases hw : workerRun t (c.sinkOk t) (c.rowsFor t opt) 0 with ⟨es, f⟩
  have hes : ∀ e ∈ es, evTable e = some t := by
    intro e' he'
    exact workerRun_evTable t (c.sinkOk t) (c.rowsFor t opt) 0 e' (by rw [hw]; exact he')
  cases f with
  | some m =>
    simp only [tableGo, hw] at he
    rcases List.mem_cons.mp he with rfl | he
    · rfl
    · rcases List.mem_cons.mp he with rfl | he
      · rfl
      · exact hes e he
  | none =>
    simp only [tableGo, hw] at he
    rcases List.mem_cons.mp he with rfl | he
    · rfl
    · rcases List.mem_cons.mp he with rfl | he
      · rfl
      · rcases List.mem_append.mp he with he | he
        · exact hes e he
        · unfold readErrEvents at he
          rcases hr : c.readErr t opt with _ | m
          · rw [hr] at he; cases he
          · rw [hr, List.mem_singleton] at he; subst he; rfl

/-- Every event `tableRun` produces belongs to its table. -/
theorem tableRun_evTable (c : Collab) (cfg : List Table) (t : String) :
    ∀ e ∈ (tableRun c cfg t).1, evTable e = some t := by
  intro e he
  rcases hf : findByName cfg t with _ | tc
  · simp only [tableRun, hf] at he
    exact tableGo_evTable c t defaultOpt e he
  · cases hig : tc.ignoreData with
    | true =>
      simp only [tableRun, hf, hig, if_true, List.mem_singleton] at he
      subst he; rfl
    | false =>
      simp only [tableRun, hf, hig, Bool.false_eq_true, if_false] at he
      exact tableGo_evTable c t (newReadTableOpt tc) e he

/-- A table configured with the ignore-data flag contributes exactly one
skip event and nothing else to the loop. -/
theorem tableRun_ignored (c : Collab) (cfg : List Table) (t : String) (tc : Table)
    (h1 : findByName cfg t = some tc) (h2 : tc.ignoreData = true) :
    tableRun c cfg t = ([Event.skip t], none) := by
  simp only [tableRun, h1, h2, if_true]

/-- Every event of the table loop comes from the `tableRun` of one of the
listed tables. -/
theorem dumpLoop_mem (c : Collab) (cfg : List Table) (ts : List String) :
    ∀ e ∈ (dumpLoop c cfg ts).1, ∃ t ∈ ts, e ∈ (tableRun c cfg t).1 := by
  induction ts with
  | nil => intro e he; cases he
  | cons t rest ih =>
    intro e he
    rcases ht : tableRun c cfg t with ⟨es, f⟩
    cases f with
    | some m =>
      simp only [dumpLoop, ht] at he
      exact ⟨t, List.mem_cons_self _ _, by rw [ht]; exact he⟩
    | none =>
      simp only [dumpLoop, ht] at he
      rcases List.mem_append.mp he with he | he
      · exact ⟨t, List.mem_cons_self _ _, by rw [ht]; exact he⟩
      · obtain ⟨t', ht', he'⟩ := ih e he
        exact ⟨t', List.mem_cons_of_mem _ ht', he'⟩

/-- Every event of a full dump run is either the structure write or an event
of some listed table's `tableRun`. -/
theorem dump_mem_cases (c : Collab) (cfg : List Table) (e : Event)
    (he : e ∈ eventsOf (dump c cfg)) :
    (∃ st, e = Event.wroteStructure st) ∨ ∃ t', e ∈ (tableRun c cfg t').1 := by
  rcases hts : c.tables with m | ts
  · simp only [dump, hts, eventsOf] at he
    exact absurd he (List.not_mem_nil e)
  · rcases hst : c.structureText with m | st
    · simp only [dump, hts, hst, eventsOf] at he
      exact absurd he (List.not_mem_nil e)
    · cases hw : c.structWriteOk with
      | false =>
        simp only [dump, hts, hst, hw, Bool.false_eq_true, if_false, eventsOf] at he
        exact absurd he (List.not_mem_nil e)
      | true =>
        simp only [dump, hts, hst, hw, if_true] at he
        rcases hd : dumpLoop c cfg ts with ⟨es, f⟩
        rw [hd] at he
        have he' : e ∈ Event.wroteStructure st :: es := by
          cases f with
          | some m => exact he
          | none => exact he
        rcases List.mem_cons.mp he' with rfl | he'
        · exact Or.inl ⟨st, rfl⟩
        · obtain ⟨t', _, hm⟩ := dumpLoop_mem c cfg ts e (by rw [hd]; exact he')
          exact Or.inr ⟨t', hm⟩

/-- In a run whose configuration ignores table `t`, the only event belonging
to `t` is the skip. -/
theorem dump_ignored_only_skip (c : Collab) (cfg : List Table) (t : String) (tc : Table)
    (h1 : findByName cfg t = some tc) (h2 : tc.ignoreData = true) :
    ∀ e ∈ eventsOf (dump c cfg), evTable e = some t → e = Event.skip t := by
  intro e he het
  rcases dump_mem_cases c cfg e he with ⟨st, rfl⟩ | ⟨t', hm⟩
  · cases het
  · by_cases htt : t' = t
    · subst htt
      rw [tableRun_ignored c cfg t' tc h1 h2, List.mem_singleton] at hm
      exact hm
    · have h' := tableRun_evTable c cfg t' e hm
      rw [het] at h'
      exact absurd (Option.some.inj h').symm htt

/-- C7: a table whose configuration marks its data as ignored is skipped
entirely: no worker is spawned for it, no read with any options is requested
from the reader for it, and no completion signal is ever sent for it. -/
theorem ignored_table_skipped (c : Collab) (cfg : List Table) (t : String) (tc : Table)
    (h1 : findByName cfg t = some tc) (h2 : tc.ignoreData = true) :
    Event.spawn t ∉ eventsOf (dump c cfg) ∧
    (∀ opt, Event.read t opt ∉ eventsOf (dump c cfg)) ∧
    Event.doneSent t ∉ eventsOf (dump c cfg) := by
  refine ⟨fun hmem => ?_, fun opt hmem => ?_, fun hmem => ?_⟩
  · exact Event.noConfusion (dump_ignored_only_skip c cfg t tc h1 h2 _ hmem rfl)
  · exact Event.noConfusion (dump_ignored_only_skip c cfg t tc h1 h2 _ hmem rfl)
  · exact Event.noConfusion (dump_ignored_only_skip c cfg t tc h1 h2 _ hmem rfl)

/-- A sample reader/sink pair: two tables, empty row streams, everything
succeeding. -/
def cSample : Collab where
  tables := Except.ok ["users", "logs"]
  structureText := Except.ok "SCHEMA;"
  structWriteOk := true
  rowsFor := fun _ _ => []
  readErr := fun _ _ => none
  sinkOk := fun _ _ => true

/-- Witness for C7: with `logs` configured as ignore-data, no spawn, read or
completion signal for `logs` occurs. -/
theorem ignored_table_skipped_witness :
    Event.spawn "logs" ∉ eventsOf (dump cSample [⟨"logs", true⟩]) ∧
    (∀ opt, Event.read "logs" opt ∉ eventsOf (dump cSample [⟨"logs", true⟩])) ∧
    Event.doneSent "logs" ∉ eventsOf (dump cSample [⟨"logs", true⟩]) :=
  ignored_table_skipped cSample [⟨"logs", true⟩] "logs" ⟨"logs", true⟩ (by decide) rfl

/-- Appending one entry to the configuration changes a lookup only where
every earlier entry missed. -/
theorem findByName_append (cfg : List Table) (entry : Table) (n : String) :
    findByName (cfg ++ [entry]) n =
      match findByName cfg n with
      | some tc => some tc
      | none => if entry.name == n then some entry else none := by
  induction cfg with
  | nil =>
    cases hn : entry.name == n <;>
      simp [findByName, List.find?, hn]
  | cons hd tl ih =>
    cases hh : hd.name == n with
    | true =>
      simp only [findByName, List.cons_append, List.find?_cons, hh]
    | false =>
      simp only [findByName, List.cons_append, List.find?_cons, hh] at ih ⊢
      exact ih

/-- The spawn event is always among a non-skipped table's events. -/
theorem tableGo_spawn_mem (c : Collab) (t : String) (opt : ReadTableOpt) :
    Event.spawn t ∈ (tableGo c t opt).1 := by
  rcases hw : workerRun t (c.sinkOk t) (c.rowsFor t opt) 0 with ⟨es, f⟩
  cases f <;> simp [tableGo, hw]

/-- Appending a flag-false entry for a table leaves every table's processing
unchanged: where the lookup already hit, nothing changes; where it missed,
the new entry yields the same options (the spec-modelled construction) as
the zero-value default. -/
theorem tableRun_append (c : Collab) (cfg : List Table) (entry : Table)
    (hflag : entry.ignoreData = false) (n : String) :
    tableRun c (cfg ++ [entry]) n = tableRun c cfg n := by
  rcases hf : findByName cfg n with _ | tc
  · cases hn : entry.name == n with
    | true =>
      have h2 : findByName (cfg ++ [entry]) n = some entry := by
        simp only [findByName_append, hf, hn, if_true]
      simp only [tableRun, h2, hf, hflag, Bool.false_eq_true, if_false]
    | false =>
      have h2 : findByName (cfg ++ [entry]) n = none := by
        simp only [findByName_append, hf, hn, Bool.false_eq_true, if_false]
      simp only [tableRun, h2, hf]
  · have h2 : findByName (cfg ++ [entry]) n = some tc := by
      simp only [findByName_append, hf]
    simp only [tableRun, h2, hf]

/-- Two configurations with the same per-table behaviour drive the loop
identically. -/
theorem dumpLoop_congr (c : Collab) (cfg cfg' : List Table)
    (h : ∀ n, tableRun c cfg' n = tableRun c cfg n) (ts : List String) :
    dumpLoop c cfg' ts = dumpLoop c cfg ts := by
  induction ts with
  | nil => rfl
  | cons t rest ih => simp only [dumpLoop, h t, ih]

/-- Two configurations with the same per-table behaviour drive the whole
dump identically. -/
theorem dump_congr (c : Collab) (cfg cfg' : List Table)
    (h : ∀ n, tableRun c cfg' n = tableRun c cfg n) :
    dump c cfg' = dump c cfg := by
  rcases hts : c.tables with m | ts
  · simp only [dump, hts]
  · rcases hst : c.structureText with m | st
    · simp only [dump, hts, hst]
    · cases hw : c.structWriteOk with
      | false => simp only [dump, hts, hst, hw, Bool.false_eq_true, if_false]
      | true => simp only [dump, hts, hst, hw, if_true, dumpLoop_congr c cfg cfg' h ts]

/-- C9: a run in which a table has no configuration entry is identical to
the run in which it has an entry with the ignore-data flag false: the whole
dump (options handed to the reader included) is the same, and a worker is
spawned for the table in both runs. -/
theorem absent_config_like_flag_false (c : Collab) (cfg : List Table) (t : String)
    (h : ∀ e ∈ cfg, e.name ≠ t) :
    dump c (cfg ++ [⟨t, false⟩]) = dump c cfg ∧
    Event.spawn t ∈ (tableRun c (cfg ++ [⟨t, false⟩]) t).1 ∧
    Event.spawn t ∈ (tableRun c cfg t).1 := by
  have htr : ∀ n, tableRun c (cfg ++ [⟨t, false⟩]) n = tableRun c cfg n :=
    fun n => tableRun_append c cfg ⟨t, false⟩ rfl n
  have hnone : findByName cfg t = none := by
    apply List.find?_eq_none.mpr
    intro x hx
    simp only [beq_iff_eq]
    exact h x hx
  have hspawn : Event.spawn t ∈ (tableRun c cfg t).1 := by
    simp only [tableRun, hnone]
    exact tableGo_spawn_mem c t defaultOpt
  refine ⟨dump_congr c cfg _ htr, ?_, hspawn⟩
  rw [htr t]
  exact hspawn

/-- Witness for C9 at a concrete reader and configuration. -/
theorem absent_config_like_flag_false_witness :
    dump cSample ([⟨"logs", true⟩] ++ [⟨"users", false⟩]) = dump cSample [⟨"logs", true⟩] ∧
    Event.spawn "users"
      ∈ (tableRun cSample ([⟨"logs", true⟩] ++ [⟨"users", false⟩]) "users").1 ∧
    Event.spawn "users" ∈ (tableRun cSample [⟨"logs", true⟩] "users").1 :=
  absent_config_like_flag_false cSample [⟨"logs", true⟩] "users" (by decide)

/-- C1 counterexample: a run that starts two workers (N = 2) and succeeds;
`Dump` returns having received zero completion signals — it performs no
receive on `done` at all (the parameter is the send-only `chan<- struct{}`),
so "exactly N completion signals are observed before Dump returns" fails. -/
theorem dump_await_cex :
    dump cSample []
      = DumpResult.ok
          [Event.wroteStructure "SCHEMA;",
           Event.spawn "users", Event.read "users" ReadTableOpt.mk,
           Event.doneSent "users",
           Event.spawn "logs", Event.read "logs" ReadTableOpt.mk,
           Event.doneSent "logs"] ∧
    spawnCnt (eventsOf (dump cSample [])) = 2 ∧
    recvCnt (eventsOf (dump cSample [])) = 0 ∧
    recvCnt (eventsOf (dump cSample [])) ≠ spawnCnt (eventsOf (dump cSample [])) :=
  ⟨rfl, rfl, rfl, by decide⟩

/-- C1 amended: `Dump` itself awaits no completion signals: in every run it
observes zero signals before returning — the workers' signals go to the
caller-supplied channel for the caller to collect. -/
theorem dump_returns_without_awaiting (c : Collab) (cfg : List Table) :
    recvCnt (eventsOf (dump c cfg)) = 0 := by
  unfold recvCnt
  rw [List.count_eq_zero]
  intro hmem
  rcases dump_mem_cases c cfg Event.recvDone hmem with ⟨st, hst⟩ | ⟨t', hm⟩
  · exact Event.noConfusion hst
  · exact Option.noConfusion (tableRun_evTable c cfg t' Event.recvDone hm)

end Klepto
